import Mathlib

/-!
Verification of the NSGA-II notebook (`SynergySummerSchool.ipynb`).

The notebook drives DEAP's NSGA-II on the welded-beam-design problem.  This
file embeds, shallowly:

* the evaluation function `welded_beam_design` (real-valued, after the usual
  idealisation of Python floats as reals);
* the `optimize` driver: toolbox registration of the mutation operator, the
  generation loop `for generation in range(1, number_of_generations)`, the
  pairing `zip(offspring[::2], offspring[1::2])`, the crossover coin flip
  `random.random() <= crossover_probability`, and the final
  `return hypervolume_value`.

DEAP library operators (`selTournamentDCD`, `selNSGA2`,
`cxSimulatedBinaryBounded`, `mutPolynomialBounded`, `hypervolume`,
`sortNondominated`) are not part of the repository's sources; following the
spec they are treated as abstract collaborators (arbitrary functions of the
right shape), so every theorem about the driver holds for any behaviour of
the library operators.
-/

namespace SynergySummerSchool

/-! ## Toolbox registration of the mutation operator

`toolbox.register("mutate", tools.mutPolynomialBounded, low=..., up=...,
eta=20.0, indpb=0.1)` builds a `functools.partial` whose stored keyword
dictionary contains `indpb = 0.1` (DEAP's `Toolbox.register` is
`pfunc = partial(function, *args, **kargs)`).

`optimize` then executes `toolbox.mutate.indpb = mutation_probability`.
Setting an attribute on a `partial` object stores it in the object's
`__dict__`; it does not touch the `keywords` dictionary, and
`partial.__call__` passes only `keywords` to the wrapped function.  The model
keeps the two stores separate, exactly as CPython does. -/

/-- Model of the registered `toolbox.mutate` partial object: the keyword
dictionary entry `indpb` fixed at registration time, and the (call-time
irrelevant) instance attribute `indpb` that `optimize` assigns. -/
structure RegisteredMutate where
  keywords_indpb : ℚ
  attr_indpb : Option ℚ
  deriving DecidableEq

/-- The `toolbox.mutate` partial as registered in the notebook's global
set-up cell: `indpb=0.1` in the partial's keywords, no instance attribute. -/
def toolboxMutateInit : RegisteredMutate :=
  { keywords_indpb := 1/10, attr_indpb := none }

/-- The statement `toolbox.mutate.indpb = mutation_probability` at the top of
`optimize`: attribute assignment on a `functools.partial` writes the object's
`__dict__`, leaving the stored keyword dictionary unchanged. -/
def setMutateIndpbAttr (tb : RegisteredMutate) (p : ℚ) : RegisteredMutate :=
  { tb with attr_indpb := some p }

/-- A call `toolbox.mutate(ind)` forwards the *keyword dictionary* to
`mutPolynomialBounded` (`partial.__call__` semantics); the per-gene
probability the operator receives is therefore `keywords_indpb`. -/
def callIndpb (tb : RegisteredMutate) : ℚ :=
  tb.keywords_indpb

/-- The per-gene mutation probability actually in force inside
`optimize(..., mutation_probability)`, after the line
`toolbox.mutate.indpb = mutation_probability` has run. -/
def effectiveMutationIndpb (mutation_probability : ℚ) : ℚ :=
  callIndpb (setMutateIndpbAttr toolboxMutateInit mutation_probability)

/-! ## The variation loop

```
for ind1, ind2 in zip(offspring[::2], offspring[1::2]):
    if random.random() <= crossover_probability:
        toolbox.mate(ind1, ind2)
    toolbox.mutate(ind1)
    toolbox.mutate(ind2)
```

`zip(offspring[::2], offspring[1::2])` walks the consecutive disjoint pairs
`(offspring[0], offspring[1]), (offspring[2], offspring[3]), ...`; when the
list has odd length the unpaired last element is silently dropped by `zip`.
The in-place `mate`/`mutate` calls become value-passing functions.  The
stream of `random.random()` pair-level draws is an explicit function of the
pair index. -/

/-- The pair-level crossover test `random.random() <= crossover_probability`
(note: `<=`, not `<`). -/
def crossoverBranchTaken (draw cxpb : ℚ) : Bool :=
  draw ≤ cxpb

/-- The crossover stage of the variation loop alone: each consecutive pair is
mated when its draw passes `crossoverBranchTaken`, otherwise passed through
unchanged; a trailing unpaired element is left untouched. -/
def crossPairs {α : Type} (cxpb : ℚ) (mate : α → α → α × α)
    (draws : ℕ → ℚ) : ℕ → List α → List α
  | k, x :: y :: rest =>
    let p := if crossoverBranchTaken (draws k) cxpb then mate x y else (x, y)
    p.1 :: p.2 :: crossPairs cxpb mate draws (k + 1) rest
  | _, xs => xs

/-- The full variation loop body: conditional crossover per pair followed by
mutation of both members of the pair; a trailing unpaired element is dropped
by `zip` and so receives neither crossover nor mutation. -/
def varyPairs {α : Type} (cxpb : ℚ) (mate : α → α → α × α) (mutate : α → α)
    (draws : ℕ → ℚ) : ℕ → List α → List α
  | k, x :: y :: rest =>
    let p := if crossoverBranchTaken (draws k) cxpb then mate x y else (x, y)
    mutate p.1 :: mutate p.2 :: varyPairs cxpb mate mutate draws (k + 1) rest
  | _, xs => xs

/-! ## The `optimize` driver -/

/-- The DEAP collaborators `optimize` calls, plus its random sources.
Modelled from the spec: the bodies of the DEAP operators are not in the
repository's sources, so they are abstract functions here — `selTournamentDCD`
and `selNSGA2` are arbitrary selection maps `population × k ↦ list`, `mate`
returns the pair the in-place `cxSimulatedBinaryBounded` leaves behind,
`mutate` likewise for `mutPolynomialBounded`, `evaluate` attaches fitness to
an individual, `hypervolume` is the monitoring metric, and
`sortNondominatedFirst` is the first front used only for plotting.
`crossoverDraw gen k` is the `random.random()` value of pair `k` in
generation `gen`. -/
structure Collaborators (α : Type) where
  selTournamentDCD : List α → ℕ → List α
  selNSGA2 : List α → ℕ → List α
  mate : α → α → α × α
  mutate : α → α
  evaluate : α → α
  hypervolume : List α → ℚ
  sortNondominatedFirst : List α → List α
  initialPopulation : ℕ → List α
  crossoverDraw : ℕ → ℕ → ℚ

/-- Run-time errors the driver can hit.  `configurationError` is modelled
from the spec's §7 taxonomy so that claims about it can be stated; the
notebook's `optimize` contains no validation code, so the model never
produces it.  `unboundLocalHypervolumeValue` is Python's `UnboundLocalError`
on `return hypervolume_value` when the generation loop body never ran. -/
inductive RunError where
  | configurationError
  | unboundLocalHypervolumeValue
  deriving DecidableEq

/-- State threaded through the generation loop: the current population, the
`hypervolume_history` array (seeded with `[[0, 0]]`), the local variable
`hypervolume_value` (unassigned until the first loop iteration, hence
`Option`), and the trace of populations (initial population plus one entry
per generation) for stating run-comparison properties. -/
structure RunState (α : Type) where
  population : List α
  hvHistory : List (ℕ × ℚ)
  hvValue : Option ℚ
  trace : List (List α)

/-- One iteration of `for generation in range(1, number_of_generations)`:
tournament selection of a full-size mating pool, cloning (value copies, so
the identity on values), conditional SBX plus unconditional mutation via
`varyPairs`, re-evaluation of all offspring, environmental selection
`selNSGA2(population + offspring, population_size)`, and the
monitoring-only hypervolume computation that feeds the history and the
plot. -/
def genBody {α : Type} (C : Collaborators α) (population_size : ℕ)
    (crossover_probability : ℚ) (s : RunState α) (generation : ℕ) :
    RunState α :=
  let offspring := C.selTournamentDCD s.population s.population.length
  let offspring := offspring.map id
  let offspring :=
    varyPairs crossover_probability C.mate C.mutate
      (C.crossoverDraw generation) 0 offspring
  let offspring := offspring.map C.evaluate
  let population := C.selNSGA2 (s.population ++ offspring) population_size
  let nondom := C.sortNondominatedFirst population
  let hypervolume_value := C.hypervolume population
  let _plotted := nondom
  { population := population
    hvHistory := s.hvHistory ++ [(generation, hypervolume_value)]
    hvValue := some hypervolume_value
    trace := s.trace ++ [population] }

/-- The generation indices `range(1, number_of_generations)`:
`number_of_generations - 1` iterations starting at 1 (empty when
`number_of_generations <= 1`). -/
def generationIndices (number_of_generations : ℕ) : List ℕ :=
  List.range' 1 (number_of_generations - 1)

/-- The whole of `optimize` except the final `return`: assign the (inert)
`indpb` attribute, build and evaluate the initial population, run
`selNSGA2` once to attach crowding distances, seed `hypervolume_history`
with `[[0, 0]]`, then fold the generation body over
`range(1, number_of_generations)`. -/
def optimizeRun {α : Type} (C : Collaborators α)
    (population_size number_of_generations : ℕ)
    (crossover_probability mutation_probability : ℚ) : RunState α :=
  let _toolboxMutate := setMutateIndpbAttr toolboxMutateInit mutation_probability
  let population := C.initialPopulation population_size
  let population := population.map C.evaluate
  let population := C.selNSGA2 population population.length
  let init : RunState α :=
    { population := population
      hvHistory := [(0, 0)]
      hvValue := none
      trace := [population] }
  (generationIndices number_of_generations).foldl
    (genBody C population_size crossover_probability) init

/-- `optimize` itself: run the loop, then `return hypervolume_value` — a
`NameError`/`UnboundLocalError` when the loop body never executed, the last
generation's hypervolume otherwise. -/
def optimize {α : Type} (C : Collaborators α)
    (population_size number_of_generations : ℕ)
    (crossover_probability mutation_probability : ℚ) : Except RunError ℚ :=
  match (optimizeRun C population_size number_of_generations
      crossover_probability mutation_probability).hvValue with
  | some v => Except.ok v
  | none => Except.error RunError.unboundLocalHypervolumeValue

/-- A concrete instantiation of the collaborators over `ℕ` individuals, used
to evaluate the driver model on closed inputs. -/
def natCollaborators : Collaborators ℕ :=
  { selTournamentDCD := fun pop k => (pop ++ pop).take k
    selNSGA2 := fun pop k => pop.take k
    mate := fun x y => (y, x)
    mutate := fun x => x + 1
    evaluate := fun x => x
    hypervolume := fun pop => (pop.length : ℚ)
    sortNondominatedFirst := fun pop => pop.take 1
    initialPopulation := fun n => List.range n
    crossoverDraw := fun _ k => 1 / (k + 2 : ℚ) }

/-! ## The evaluation function `welded_beam_design`

Each intermediate of the Python function becomes a named real-valued
function of the gene vector `x : Fin 4 → ℝ` (Python floats idealised as
reals; `math.sqrt` as `Real.sqrt`, `math.tanh` as `Real.tanh`). -/

noncomputable section

/-- `b = 0.125 + 4.875 * x[0]` (problem encoding). -/
def beamB (x : Fin 4 → ℝ) : ℝ := 0.125 + 4.875 * x 0

/-- `h = 0.125 + (b - 0.125) * x[1]`. -/
def beamH (x : Fin 4 → ℝ) : ℝ := 0.125 + (beamB x - 0.125) * x 1

/-- `l = 0.1 + 9.9 * x[2]`. -/
def beamL (x : Fin 4 → ℝ) : ℝ := 0.1 + 9.9 * x 2

/-- `t = 0.1 + 9.9 * x[3]`. -/
def beamT (x : Fin 4 → ℝ) : ℝ := 0.1 + 9.9 * x 3

/-- `sigma = 504000.0 / (t*t * b)`. -/
def sigma (x : Fin 4 → ℝ) : ℝ := 504000.0 / (beamT x * beamT x * beamB x)

/-- `tau1 = 6000.0 / (sqrt(2.0) * h * l)`. -/
def tau1 (x : Fin 4 → ℝ) : ℝ := 6000.0 / (Real.sqrt 2.0 * beamH x * beamL x)

/-- The argument `0.25 * (l*l + (h+t)*(h+t))` of the square roots inside
`tau2` and `tau`. -/
def sqArg (x : Fin 4 → ℝ) : ℝ :=
  0.25 * (beamL x * beamL x + (beamH x + beamT x) * (beamH x + beamT x))

/-- The denominator `1.414 * h*l * (l*l/12.0 + 0.25*(h+t)*(h+t))` of `tau2`. -/
def tau2Den (x : Fin 4 → ℝ) : ℝ :=
  1.414 * beamH x * beamL x *
    (beamL x * beamL x / 12.0 + 0.25 * ((beamH x + beamT x) * (beamH x + beamT x)))

/-- `tau2 = 6000.0 * (14.0 + 0.5*l) * sqrt(0.25 * (l*l + (h+t)*(h+t))) / (...)`. -/
def tau2 (x : Fin 4 → ℝ) : ℝ :=
  6000.0 * (14.0 + 0.5 * beamL x) * Real.sqrt (sqArg x) / tau2Den x

/-- The argument of the outer square root in `tau`:
`tau1*tau1 + tau2*tau2 + l*tau1*tau2 / sqrt(0.25 * (l*l + (h+t)*(h+t)))`. -/
def tauArg (x : Fin 4 → ℝ) : ℝ :=
  tau1 x * tau1 x + tau2 x * tau2 x +
    beamL x * tau1 x * tau2 x / Real.sqrt (sqArg x)

/-- `tau = sqrt(tau1*tau1 + tau2*tau2 + l*tau1*tau2 / sqrt(...))`. -/
def tau (x : Fin 4 → ℝ) : ℝ := Real.sqrt (tauArg x)

/-- `P_c = 64746.022 * (1.0 - 0.0282346*t) * t * b*b*b`. -/
def beamPc (x : Fin 4 → ℝ) : ℝ :=
  64746.022 * (1.0 - 0.0282346 * beamT x) * beamT x *
    (beamB x * beamB x * beamB x)

/-- Raw first objective `f1 = 1.10471 * h*h * l + 0.04811 * t * b * (14.0 + l)`. -/
def f1Raw (x : Fin 4 → ℝ) : ℝ :=
  1.10471 * beamH x * beamH x * beamL x +
    0.04811 * beamT x * beamB x * (14.0 + beamL x)

/-- Raw second objective `f2 = 2.1952 / (t*t*t * b)`. -/
def f2Raw (x : Fin 4 → ℝ) : ℝ :=
  2.1952 / (beamT x * beamT x * beamT x * beamB x)

/-- Constraint `g1 = tau - 13600.0`. -/
def g1 (x : Fin 4 → ℝ) : ℝ := tau x - 13600.0

/-- Constraint `g2 = sigma - 30000.0`. -/
def g2 (x : Fin 4 → ℝ) : ℝ := sigma x - 30000.0

/-- Constraint `g3 = 6000.0 - P_c`. -/
def g3 (x : Fin 4 → ℝ) : ℝ := 6000.0 - beamPc x

/-- The weighted sum of positive-part constraint violations
`max(1e-6*g1, 0.0) + max(1e-6*g2, 0.0) + max(1e-7*g3, 0.0)`. -/
def penaltyBase (x : Fin 4 → ℝ) : ℝ :=
  max (1e-6 * g1 x) 0.0 + max (1e-6 * g2 x) 0.0 + max (1e-7 * g3 x) 0.0

/-- The final penalty: `if penalty > 0.0: penalty += 0.5`. -/
def penalty (x : Fin 4 → ℝ) : ℝ :=
  if penaltyBase x > 0.0 then penaltyBase x + 0.5 else penaltyBase x

/-- `welded_beam_design`: scale the objectives (`f1 /= 40.0`,
`f2 /= 0.006`), add the penalty to both, return `[tanh(f1), tanh(f2)]`. -/
def welded_beam_design (x : Fin 4 → ℝ) : ℝ × ℝ :=
  (Real.tanh (f1Raw x / 40.0 + penalty x),
   Real.tanh (f2Raw x / 0.006 + penalty x))

/-- The domain of the optimisation: all four genes in `[0, 1]`. -/
def InUnitBox (x : Fin 4 → ℝ) : Prop := ∀ i, 0 ≤ x i ∧ x i ≤ 1

/-- The spec's description of the evaluation function, written from the
spec's words for comparison with the source embedding: raw objectives
scaled by the fixed constants 40.0 and 0.006, a weighted sum of
positive-part constraint violations as penalty, a flat 0.5 added exactly
when that sum is strictly positive, the penalty added to both objectives,
and `tanh` compression applied to each before returning. -/
def welded_beam_design_spec (x : Fin 4 → ℝ) : ℝ × ℝ :=
  let violationSum :=
    max (1e-6 * g1 x) 0 + max (1e-6 * g2 x) 0 + max (1e-7 * g3 x) 0
  let pen := violationSum + (if 0 < violationSum then 0.5 else 0)
  (Real.tanh (f1Raw x / 40.0 + pen), Real.tanh (f2Raw x / 0.006 + pen))

/-- The all-zero gene vector, a concrete point of the domain `[0,1]^4`. -/
def zeroGene : Fin 4 → ℝ := fun _ => 0

end

/-! ## Helper lemmas -/

/-- Two-step list induction: to prove a predicate of every list it is enough
to handle the empty list, singletons, and the two-cons step. -/
theorem listTwoStepInd {α : Type} (P : List α → Prop) (h0 : P [])
    (h1 : ∀ x, P [x]) (h2 : ∀ x y rest, P rest → P (x :: y :: rest)) :
    ∀ l, P l := by
  have key : ∀ (n : ℕ) (l : List α), l.length ≤ n → P l := by
    intro n
    induction n with
    | zero =>
      intro l hl
      cases l with
      | nil => exact h0
      | cons x rest => simp at hl
    | succ n ih =>
      intro l hl
      cases l with
      | nil => exact h0
      | cons x rest =>
        cases rest with
        | nil => exact h1 x
        | cons y rest2 =>
          refine h2 x y rest2 (ih rest2 ?_)
          simp only [List.length_cons] at hl
          omega
  intro l
  exact key l.length l le_rfl

/-- `tanh` of a positive real is positive. -/
theorem realTanh_pos {y : ℝ} (hy : 0 < y) : 0 < Real.tanh y := by
  rw [Real.tanh_eq_sinh_div_cosh]
  exact div_pos (Real.sinh_pos_iff.mpr hy) (Real.cosh_pos y)

/-- `tanh` is everywhere below 1. -/
theorem realTanh_lt_one (y : ℝ) : Real.tanh y < 1 := by
  rw [Real.tanh_eq_sinh_div_cosh]
  exact (div_lt_one (Real.cosh_pos y)).mpr (Real.sinh_lt_cosh y)

theorem beamB_lb (x : Fin 4 → ℝ) (hx : InUnitBox x) : 0.125 ≤ beamB x := by
  have h0 := (hx 0).1
  unfold beamB
  nlinarith

theorem beamB_pos (x : Fin 4 → ℝ) (hx : InUnitBox x) : 0 < beamB x :=
  lt_of_lt_of_le (by norm_num) (beamB_lb x hx)

theorem beamH_lb (x : Fin 4 → ℝ) (hx : InUnitBox x) : 0.125 ≤ beamH x := by
  have hb := beamB_lb x hx
  have h1 := (hx 1).1
  have hmul : 0 ≤ (beamB x - 0.125) * x 1 :=
    mul_nonneg (by linarith) h1
  unfold beamH
  linarith

theorem beamH_pos (x : Fin 4 → ℝ) (hx : InUnitBox x) : 0 < beamH x :=
  lt_of_lt_of_le (by norm_num) (beamH_lb x hx)

theorem beamL_lb (x : Fin 4 → ℝ) (hx : InUnitBox x) : 0.1 ≤ beamL x := by
  have h2 := (hx 2).1
  unfold beamL
  nlinarith

theorem beamL_pos (x : Fin 4 → ℝ) (hx : InUnitBox x) : 0 < beamL x :=
  lt_of_lt_of_le (by norm_num) (beamL_lb x hx)

theorem beamT_lb (x : Fin 4 → ℝ) (hx : InUnitBox x) : 0.1 ≤ beamT x := by
  have h3 := (hx 3).1
  unfold beamT
  nlinarith

theorem beamT_pos (x : Fin 4 → ℝ) (hx : InUnitBox x) : 0 < beamT x :=
  lt_of_lt_of_le (by norm_num) (beamT_lb x hx)

theorem sqrtTwo_pos : 0 < Real.sqrt 2.0 :=
  Real.sqrt_pos.mpr (by norm_num)

theorem sqArg_pos (x : Fin 4 → ℝ) (hx : InUnitBox x) : 0 < sqArg x := by
  have hl := beamL_pos x hx
  have hsq := mul_self_nonneg (beamH x + beamT x)
  unfold sqArg
  nlinarith

theorem tau2Den_pos (x : Fin 4 → ℝ) (hx : InUnitBox x) : 0 < tau2Den x := by
  have hh := beamH_pos x hx
  have hl := beamL_pos x hx
  have hq : 0 < beamL x * beamL x / 12.0 +
      0.25 * ((beamH x + beamT x) * (beamH x + beamT x)) :=
    add_pos_of_pos_of_nonneg (div_pos (mul_pos hl hl) (by norm_num))
      (mul_nonneg (by norm_num) (mul_self_nonneg _))
  unfold tau2Den
  have h1414 : (0:ℝ) < 1.414 := by norm_num
  exact mul_pos (mul_pos (mul_pos h1414 hh) hl) hq

theorem tau1_pos (x : Fin 4 → ℝ) (hx : InUnitBox x) : 0 < tau1 x := by
  have hh := beamH_pos x hx
  have hl := beamL_pos x hx
  unfold tau1
  exact div_pos (by norm_num) (mul_pos (mul_pos sqrtTwo_pos hh) hl)

theorem tau2_pos (x : Fin 4 → ℝ) (hx : InUnitBox x) : 0 < tau2 x := by
  have hl := beamL_pos x hx
  have hnum : 0 < 6000.0 * (14.0 + 0.5 * beamL x) * Real.sqrt (sqArg x) :=
    mul_pos (mul_pos (by norm_num) (by nlinarith))
      (Real.sqrt_pos.mpr (sqArg_pos x hx))
  unfold tau2
  exact div_pos hnum (tau2Den_pos x hx)

theorem tauArg_pos (x : Fin 4 → ℝ) (hx : InUnitBox x) : 0 < tauArg x := by
  have h1 := tau1_pos x hx
  have h2 := tau2_pos x hx
  have hl := beamL_pos x hx
  have hs := Real.sqrt_pos.mpr (sqArg_pos x hx)
  unfold tauArg
  exact add_pos (add_pos (mul_pos h1 h1) (mul_pos h2 h2))
    (div_pos (mul_pos (mul_pos hl h1) h2) hs)

theorem penaltyBase_nonneg (x : Fin 4 → ℝ) : 0 ≤ penaltyBase x := by
  have h1 : (0:ℝ) ≤ max (1e-6 * g1 x) 0.0 := by norm_num [le_max_iff]
  have h2 : (0:ℝ) ≤ max (1e-6 * g2 x) 0.0 := by norm_num [le_max_iff]
  have h3 : (0:ℝ) ≤ max (1e-7 * g3 x) 0.0 := by norm_num [le_max_iff]
  unfold penaltyBase
  linarith

theorem penalty_nonneg (x : Fin 4 → ℝ) : 0 ≤ penalty x := by
  have hb := penaltyBase_nonneg x
  unfold penalty
  split_ifs with h
  · linarith
  · exact hb

theorem f1Raw_pos (x : Fin 4 → ℝ) (hx : InUnitBox x) : 0 < f1Raw x := by
  have hh := beamH_pos x hx
  have hl := beamL_pos x hx
  have ht := beamT_pos x hx
  have hb := beamB_pos x hx
  have hterm1 : 0 < 1.10471 * beamH x * beamH x * beamL x :=
    mul_pos (mul_pos (mul_pos (by norm_num) hh) hh) hl
  have hterm2 : 0 < 0.04811 * beamT x * beamB x * (14.0 + beamL x) :=
    mul_pos (mul_pos (mul_pos (by norm_num) ht) hb) (by nlinarith)
  unfold f1Raw
  linarith

theorem f2Raw_pos (x : Fin 4 → ℝ) (hx : InUnitBox x) : 0 < f2Raw x := by
  have ht := beamT_pos x hx
  have hb := beamB_pos x hx
  unfold f2Raw
  exact div_pos (by norm_num) (mul_pos (mul_pos (mul_pos ht ht) ht) hb)

/-! ## Claim theorems: the evaluation function -/

/-- Claim C5: on the domain `[0,1]^4` the evaluation function is total —
every denominator appearing in `welded_beam_design` (`t*t*b` for `sigma`,
`sqrt(2)*h*l` for `tau1`, the `tau2` denominator, and `t*t*t*b` for `f2`) is
strictly positive, both square-root arguments are nonnegative, and the
function returns the pair of `tanh`-compressed objectives; in the real-number
idealisation of Python floats this rules out division by zero, square roots
of negative numbers, and non-finite results. -/
theorem welded_beam_design_total_on_domain (x : Fin 4 → ℝ) (hx : InUnitBox x) :
    0 < beamT x * beamT x * beamB x ∧
    0 < Real.sqrt 2.0 * beamH x * beamL x ∧
    0 < tau2Den x ∧
    0 ≤ sqArg x ∧
    0 ≤ tauArg x ∧
    0 < beamT x * beamT x * beamT x * beamB x ∧
    welded_beam_design x =
      (Real.tanh (f1Raw x / 40.0 + penalty x),
       Real.tanh (f2Raw x / 0.006 + penalty x)) := by
  have hh := beamH_pos x hx
  have hl := beamL_pos x hx
  have ht := beamT_pos x hx
  have hb := beamB_pos x hx
  refine ⟨mul_pos (mul_pos ht ht) hb,
    mul_pos (mul_pos sqrtTwo_pos hh) hl,
    tau2Den_pos x hx,
    le_of_lt (sqArg_pos x hx),
    le_of_lt (tauArg_pos x hx),
    mul_pos (mul_pos (mul_pos ht ht) ht) hb,
    rfl⟩

/-- Closed witness for `welded_beam_design_total_on_domain` at the all-zero
gene vector. -/
theorem welded_beam_design_total_on_domain_witness :
    InUnitBox zeroGene ∧
    (0 < beamT zeroGene * beamT zeroGene * beamB zeroGene ∧
     0 < Real.sqrt 2.0 * beamH zeroGene * beamL zeroGene ∧
     0 < tau2Den zeroGene ∧
     0 ≤ sqArg zeroGene ∧
     0 ≤ tauArg zeroGene ∧
     0 < beamT zeroGene * beamT zeroGene * beamT zeroGene * beamB zeroGene ∧
     welded_beam_design zeroGene =
       (Real.tanh (f1Raw zeroGene / 40.0 + penalty zeroGene),
        Real.tanh (f2Raw zeroGene / 0.006 + penalty zeroGene))) :=
  ⟨fun _ => ⟨le_rfl, zero_le_one⟩,
   welded_beam_design_total_on_domain zeroGene (fun _ => ⟨le_rfl, zero_le_one⟩)⟩

/-- Claim C9: on the domain `[0,1]^4` both returned components lie strictly
between 0 and 1: the scaled objectives are strictly positive, the penalty is
nonnegative, and `tanh` maps positive reals into `(0, 1)`. -/
theorem welded_beam_design_components_in_unit_interval (x : Fin 4 → ℝ)
    (hx : InUnitBox x) :
    0 < (welded_beam_design x).1 ∧ (welded_beam_design x).1 < 1 ∧
    0 < (welded_beam_design x).2 ∧ (welded_beam_design x).2 < 1 := by
  have hpen := penalty_nonneg x
  have h1 : 0 < f1Raw x / 40.0 + penalty x :=
    add_pos_of_pos_of_nonneg (div_pos (f1Raw_pos x hx) (by norm_num)) hpen
  have h2 : 0 < f2Raw x / 0.006 + penalty x :=
    add_pos_of_pos_of_nonneg (div_pos (f2Raw_pos x hx) (by norm_num)) hpen
  refine ⟨realTanh_pos h1, realTanh_lt_one _, realTanh_pos h2, realTanh_lt_one _⟩

/-- Closed witness for `welded_beam_design_components_in_unit_interval` at
the all-zero gene vector. -/
theorem welded_beam_design_components_in_unit_interval_witness :
    InUnitBox zeroGene ∧
    (0 < (welded_beam_design zeroGene).1 ∧ (welded_beam_design zeroGene).1 < 1 ∧
     0 < (welded_beam_design zeroGene).2 ∧ (welded_beam_design zeroGene).2 < 1) :=
  ⟨fun _ => ⟨le_rfl, zero_le_one⟩,
   welded_beam_design_components_in_unit_interval zeroGene
     (fun _ => ⟨le_rfl, zero_le_one⟩)⟩

/-- Claim C6: `welded_beam_design` agrees pointwise with the spec's
description — objectives scaled by the fixed constants 40.0 and 0.006, a
weighted sum of positive-part constraint violations as penalty, a flat 0.5
added exactly when that sum is strictly positive, the penalty added to both
objectives, and `tanh` applied to each before returning. -/
theorem welded_beam_design_matches_spec_description (x : Fin 4 → ℝ) :
    welded_beam_design x = welded_beam_design_spec x := by
  unfold welded_beam_design welded_beam_design_spec penalty penaltyBase
  norm_num
  split_ifs with h
  · constructor <;> ring_nf
  · constructor <;> ring_nf

/-! ## Claim theorems: the driver -/

/-- Claim C1 (bug evidence): the per-gene probability reaching
`mutPolynomialBounded` is the registration-time `indpb=0.1` for *every*
value of the `mutation_probability` argument — the assignment
`toolbox.mutate.indpb = mutation_probability` writes an instance attribute
of the `functools.partial` object, not its keyword dictionary, so the call
still forwards `indpb=0.1`.  In particular at `mutation_probability = 0.9`
the per-gene probability in force is `0.1`. -/
theorem effectiveMutationIndpb_ignores_argument :
    (∀ p : ℚ, effectiveMutationIndpb p = 1/10) ∧
    effectiveMutationIndpb (9/10) = 1/10 :=
  ⟨fun _ => rfl, rfl⟩

theorem foldl_genBody_hvValue_isSome {α : Type} (C : Collaborators α)
    (ps : ℕ) (cx : ℚ) :
    ∀ (gs : List ℕ) (g : ℕ) (s : RunState α),
      (((g :: gs).foldl (genBody C ps cx) s).hvValue).isSome = true := by
  intro gs
  induction gs with
  | nil =>
    intro g s
    simp [genBody]
  | cons g2 gs ih =>
    intro g s
    exact ih g2 (genBody C ps cx s g)

theorem foldl_genBody_trace_length {α : Type} (C : Collaborators α)
    (ps : ℕ) (cx : ℚ) :
    ∀ (gs : List ℕ) (s : RunState α),
      ((gs.foldl (genBody C ps cx) s).trace).length =
        s.trace.length + gs.length := by
  intro gs
  induction gs with
  | nil => intro s; simp
  | cons g gs ih =>
    intro s
    rw [List.foldl_cons, ih (genBody C ps cx s g)]
    have htr : (genBody C ps cx s g).trace.length = s.trace.length + 1 := by
      simp [genBody]
    rw [htr]
    simp only [List.length_cons]
    omega

/-- Claim C2 counterexample: with `number_of_generations = 1` the generation
loop body never runs, the local `hypervolume_value` is never assigned, and
`return hypervolume_value` raises — `optimize` does not return normally. -/
theorem optimize_single_generation_unbound_local :
    optimize natCollaborators 2 1 0 0 =
      Except.error RunError.unboundLocalHypervolumeValue := rfl

/-- Claim C2, amended: for `number_of_generations ≥ 2` (and arbitrary
collaborators and remaining parameters) `optimize` terminates normally with
a value, and the generation loop `range(1, number_of_generations)` executes
its body exactly `number_of_generations - 1` times; at
`number_of_generations = 1` the loop count is still 0 = G - 1 but the final
`return hypervolume_value` reads a never-assigned local. -/
theorem optimize_ok_of_two_le_generations {α : Type} (C : Collaborators α)
    (population_size number_of_generations : ℕ)
    (crossover_probability mutation_probability : ℚ)
    (hG : 2 ≤ number_of_generations) :
    (∃ v, optimize C population_size number_of_generations
        crossover_probability mutation_probability = Except.ok v) ∧
    (generationIndices number_of_generations).length =
      number_of_generations - 1 := by
  constructor
  · obtain ⟨k, hk⟩ : ∃ k, number_of_generations - 1 = k + 1 :=
      ⟨number_of_generations - 2, by omega⟩
    have hgen : generationIndices number_of_generations =
        1 :: List.range' 2 k := by
      rw [generationIndices, hk]
      rfl
    have hsome :
        ((optimizeRun C population_size number_of_generations
          crossover_probability mutation_probability).hvValue).isSome = true := by
      rw [optimizeRun, hgen]
      exact foldl_genBody_hvValue_isSome C population_size
        crossover_probability (List.range' 2 k) 1 _
    obtain ⟨v, hv⟩ := Option.isSome_iff_exists.mp hsome
    exact ⟨v, by simp [optimize, hv]⟩
  · simp [generationIndices]

/-- Closed witness for `optimize_ok_of_two_le_generations` at the concrete
collaborators over `ℕ`, population size 4, two generations. -/
theorem optimize_ok_of_two_le_generations_witness :
    2 ≤ 2 ∧
    ((∃ v, optimize natCollaborators 4 2 0 0 = Except.ok v) ∧
     (generationIndices 2).length = 2 - 1) :=
  ⟨by decide, optimize_ok_of_two_le_generations natCollaborators 4 2 0 0 (by decide)⟩

/-- Claim C3 counterexample: the pair-level test is
`random.random() <= crossover_probability`, so with
`crossover_probability = 0` the draw `0.0` — a possible value of
`random.random()`, whose range is `[0, 1)` — *does* take the crossover
branch, and a mating pair with distinct parents is then changed by `mate`
before mutation. -/
theorem crossover_branch_taken_at_zero_draw :
    (0:ℚ) ≤ 0 ∧ (0:ℚ) < 1 ∧
    crossoverBranchTaken 0 0 = true ∧
    crossPairs 0 (fun x y => (y, x)) (fun _ => 0) 0 [(1:ℕ), 2] = [2, 1] := by
  refine ⟨le_rfl, by norm_num, rfl, by decide⟩

/-- Claim C3, amended: with `crossover_probability = 0` the crossover branch
is skipped for every *strictly positive* draw (all of `(0,1)`; the single
draw `0.0` still enters the branch because the test uses `<=`), and on such
draw streams the crossover stage returns every mating pair — and hence every
offspring's genes — unchanged. -/
theorem crossover_skipped_for_positive_draws {α : Type}
    (mate : α → α → α × α) (draws : ℕ → ℚ) (hd : ∀ n, 0 < draws n) :
    (∀ n, crossoverBranchTaken (draws n) 0 = false) ∧
    ∀ (k : ℕ) (offspring : List α), crossPairs 0 mate draws k offspring = offspring := by
  have hfalse : ∀ n, crossoverBranchTaken (draws n) 0 = false := by
    intro n
    exact decide_eq_false (not_le.mpr (hd n))
  refine ⟨hfalse, ?_⟩
  have key : ∀ offspring : List α, ∀ k : ℕ,
      crossPairs 0 mate draws k offspring = offspring := by
    refine listTwoStepInd (fun l => ∀ k, crossPairs 0 mate draws k l = l)
      (fun _ => rfl) (fun x _ => rfl) ?_
    intro x y rest ih k
    simp only [crossPairs, hfalse k]
    exact congrArg (fun l => x :: y :: l) (ih (k + 1))
  intro k offspring
  exact key offspring k

/-- Closed witness for `crossover_skipped_for_positive_draws` with the
constant draw stream 1/2. -/
theorem crossover_skipped_for_positive_draws_witness :
    (∀ n : ℕ, 0 < (fun _ : ℕ => (1:ℚ)/2) n) ∧
    ((∀ n, crossoverBranchTaken ((fun _ : ℕ => (1:ℚ)/2) n) 0 = false) ∧
     ∀ (k : ℕ) (offspring : List ℕ),
       crossPairs 0 (fun x y => (y, x)) (fun _ : ℕ => (1:ℚ)/2) k offspring = offspring) :=
  ⟨fun _ => by norm_num,
   crossover_skipped_for_positive_draws (fun x y => (y, x))
     (fun _ : ℕ => (1:ℚ)/2) (fun _ => by norm_num)⟩

/-- Claim C4 counterexample: `population_size = 3` (odd),
`crossover_probability = 2` and `mutation_probability = 3/2` (both outside
`[0,1]`) form an invalid configuration, yet `optimize` raises nothing at
setup: the run completes normally with a value, and individuals were created
and evaluated (the population trace has an entry for the initial population
and for the one generation). -/
theorem optimize_accepts_invalid_configuration :
    optimize natCollaborators 3 2 2 (3/2) = Except.ok 3 ∧
    (optimizeRun natCollaborators 3 2 2 (3/2)).trace.length = 2 := by
  constructor
  · rfl
  · rfl

/-- Claim C4, amended: the notebook's `optimize` contains no configuration
validation at all — for every configuration, valid or not, the outcome is
either a normal return or the unbound-local error of claim C2 (never a
`ConfigurationError`), and the initial population is always created and
evaluated (the trace is nonempty). -/
theorem optimize_performs_no_configuration_validation {α : Type}
    (C : Collaborators α) (population_size number_of_generations : ℕ)
    (crossover_probability mutation_probability : ℚ) :
    (optimize C population_size number_of_generations crossover_probability
        mutation_probability = Except.error RunError.unboundLocalHypervolumeValue ∨
     ∃ v, optimize C population_size number_of_generations crossover_probability
        mutation_probability = Except.ok v) ∧
    0 < (optimizeRun C population_size number_of_generations
        crossover_probability mutation_probability).trace.length := by
  constructor
  · rcases hv : (optimizeRun C population_size number_of_generations
        crossover_probability mutation_probability).hvValue with _ | v
    · exact Or.inl (by simp [optimize, hv])
    · exact Or.inr ⟨v, by simp [optimize, hv]⟩
  · rw [optimizeRun, foldl_genBody_trace_length]
    simp

/-- Claim C7: on an even-sized mating pool the variation loop equals the
crossover stage followed by a `List.map` of the mutation operator — every
offspring receives polynomial mutation exactly once, whether or not the
crossover coin flip succeeded for its pair. -/
theorem varyPairs_mutates_each_offspring_once {α : Type} (cxpb : ℚ)
    (mate : α → α → α × α) (mutate : α → α) (draws : ℕ → ℚ)
    (offspring : List α) (he : offspring.length % 2 = 0) (k : ℕ) :
    varyPairs cxpb mate mutate draws k offspring =
      (crossPairs cxpb mate draws k offspring).map mutate := by
  have key : ∀ l : List α, l.length % 2 = 0 → ∀ j : ℕ,
      varyPairs cxpb mate mutate draws j l =
        (crossPairs cxpb mate draws j l).map mutate := by
    refine listTwoStepInd
      (fun l => l.length % 2 = 0 → ∀ j,
        varyPairs cxpb mate mutate draws j l =
          (crossPairs cxpb mate draws j l).map mutate)
      (fun _ _ => rfl) ?_ ?_
    · intro x hlen
      simp at hlen
    · intro x y rest ih hlen j
      have hrest : rest.length % 2 = 0 := by
        simp only [List.length_cons] at hlen
        omega
      simp only [varyPairs, crossPairs, List.map_cons]
      rw [ih hrest (j + 1)]
  exact key offspring he k

/-- Closed witness for `varyPairs_mutates_each_offspring_once` on a
four-element pool where the first pair's draw passes the coin flip and the
second pair's fails. -/
theorem varyPairs_mutates_each_offspring_once_witness :
    ([(1:ℕ), 2, 3, 4].length % 2 = 0) ∧
    varyPairs (1/2) (fun x y => (y, x)) (fun x => x + 10)
        (fun n => 1/(n + 2 : ℚ)) 0 [(1:ℕ), 2, 3, 4] =
      (crossPairs (1/2) (fun x y => (y, x)) (fun n => 1/(n + 2 : ℚ))
        0 [(1:ℕ), 2, 3, 4]).map (fun x => x + 10) :=
  ⟨by decide,
   varyPairs_mutates_each_offspring_once (1/2) (fun x y => (y, x))
     (fun x => x + 10) (fun n => 1/(n + 2 : ℚ)) [1, 2, 3, 4] (by decide) 0⟩

/-- Claim C10: an odd-sized mating pool is an even-sized prefix plus one
trailing offspring; `zip(offspring[::2], offspring[1::2])` drops that
trailing offspring, so it passes through the variation loop with neither
crossover nor mutation and re-enters the merge exactly as cloned. -/
theorem varyPairs_leaves_unpaired_last_unchanged {α : Type} (cxpb : ℚ)
    (mate : α → α → α × α) (mutate : α → α) (draws : ℕ → ℚ)
    (pool : List α) (z : α) (he : pool.length % 2 = 0) (k : ℕ) :
    varyPairs cxpb mate mutate draws k (pool ++ [z]) =
      varyPairs cxpb mate mutate draws k pool ++ [z] := by
  have key : ∀ l : List α, l.length % 2 = 0 → ∀ j : ℕ,
      varyPairs cxpb mate mutate draws j (l ++ [z]) =
        varyPairs cxpb mate mutate draws j l ++ [z] := by
    refine listTwoStepInd
      (fun l => l.length % 2 = 0 → ∀ j,
        varyPairs cxpb mate mutate draws j (l ++ [z]) =
          varyPairs cxpb mate mutate draws j l ++ [z])
      (fun _ _ => rfl) ?_ ?_
    · intro x hlen
      simp at hlen
    · intro x y rest ih hlen j
      have hrest : rest.length % 2 = 0 := by
        simp only [List.length_cons] at hlen
        omega
      simp only [List.cons_append, varyPairs, List.append_eq]
      rw [ih hrest (j + 1)]
  exact key pool he k

/-- Closed witness for `varyPairs_leaves_unpaired_last_unchanged` on a
two-element prefix with trailing offspring 7. -/
theorem varyPairs_leaves_unpaired_last_unchanged_witness :
    ([(1:ℕ), 2].length % 2 = 0) ∧
    varyPairs (1/2) (fun x y => (y, x)) (fun x => x + 10)
        (fun n => 1/(n + 2 : ℚ)) 0 ([(1:ℕ), 2] ++ [7]) =
      varyPairs (1/2) (fun x y => (y, x)) (fun x => x + 10)
        (fun n => 1/(n + 2 : ℚ)) 0 [(1:ℕ), 2] ++ [7] :=
  ⟨by decide,
   varyPairs_leaves_unpaired_last_unchanged (1/2) (fun x y => (y, x))
     (fun x => x + 10) (fun n => 1/(n + 2 : ℚ)) [1, 2] 7 (by decide) 0⟩

theorem foldl_genBody_hv_inv {α : Type} (C : Collaborators α)
    (hv1 hv2 : List α → ℚ) (ps : ℕ) (cx : ℚ) :
    ∀ (gs : List ℕ) (s1 s2 : RunState α),
      s1.population = s2.population → s1.trace = s2.trace →
      ((gs.foldl (genBody { C with hypervolume := hv1 } ps cx) s1).population =
        (gs.foldl (genBody { C with hypervolume := hv2 } ps cx) s2).population ∧
       (gs.foldl (genBody { C with hypervolume := hv1 } ps cx) s1).trace =
        (gs.foldl (genBody { C with hypervolume := hv2 } ps cx) s2).trace) := by
  intro gs
  induction gs with
  | nil =>
    intro s1 s2 hpop htrace
    exact ⟨hpop, htrace⟩
  | cons g gs ih =>
    intro s1 s2 hpop htrace
    simp only [List.foldl_cons]
    refine ih _ _ ?_ ?_ <;> simp [genBody, hpop, htrace]

/-- Claim C8: the hypervolume collaborator has no influence on selection —
two runs of `optimize` that differ only in the hypervolume function produce
the same sequence of populations (the whole trace, initial population
included) and the same final population. -/
theorem hypervolume_has_no_influence_on_populations {α : Type}
    (C : Collaborators α) (hv1 hv2 : List α → ℚ)
    (population_size number_of_generations : ℕ)
    (crossover_probability mutation_probability : ℚ) :
    (optimizeRun { C with hypervolume := hv1 } population_size
        number_of_generations crossover_probability mutation_probability).trace =
      (optimizeRun { C with hypervolume := hv2 } population_size
        number_of_generations crossover_probability mutation_probability).trace ∧
    (optimizeRun { C with hypervolume := hv1 } population_size
        number_of_generations crossover_probability mutation_probability).population =
      (optimizeRun { C with hypervolume := hv2 } population_size
        number_of_generations crossover_probability mutation_probability).population := by
  have key := foldl_genBody_hv_inv C hv1 hv2 population_size
    crossover_probability (generationIndices number_of_generations)
  rw [optimizeRun, optimizeRun]
  exact ⟨(key _ _ rfl rfl).2, (key _ _ rfl rfl).1⟩

end SynergySummerSchool
